import Mathlib

/-!
Verification of the JSON-to-Markdown conversion pipeline
(`app/src/json-to-md.ts` of the SteamLibraryScraper repository).

The development shallowly embeds the data model and the operations of the
pipeline:

* JavaScript runtime values are modelled by `JSValue`; the ambient global
  scope reachable from a `new Function` body is modelled by `nodeGlobals`,
  and the mutable ambient world (the clock read by `Date.now()`) by `World`.
* `renderTemplate` embeds the template engine: the source scans the template
  with the regular expression `\$\{([\s\S]+?)\}` and replaces each match,
  evaluating the slot code with a dynamically constructed function.  The
  evaluation itself is abstracted as an oracle `ev : String → Except Unit
  JSValue` (`.error` models a thrown exception, either at function
  construction or during the call); `evalCode` instantiates the oracle with
  the actual `new Function` scoping semantics for a small fragment of
  JavaScript expressions (identifiers, dotted member access, nullary calls),
  which is all the fragment the theorems below need to evaluate concretely.
* `findLatestJsonFile`, `fetchSteamDetails`, `sanitizeFilename`,
  `updateStep`, `buildContext`, `processGame` and `runConversionModel` embed
  the remaining functions of the source file; file-system state is an
  association list from file names to contents, and the observable side
  effects of a run (network fetches, file writes, progress checkpoints,
  rate-limit sleeps) are recorded in an explicit event trace.
-/

/-- The function values the model can apply: `Date.now` (reads the ambient
clock) and named helper functions whose bodies are not modelled. -/
inductive BuiltinFn where
  | dateNow
  | helperFn (name : String)
deriving DecidableEq

/-- Model of a JavaScript runtime value, as far as the pipeline needs it.
`undefV` is `undefined`, `nullV` is `null`; `objV` is an object as an
association list of own properties; `fnB` is a function value (the
`dateNow` builtin reads the ambient clock; `helperFn` stands for the
context helper functions, whose bodies lie outside the modelled
expression fragment and are never invoked by the theorems below). -/
inductive JSValue where
  | undefV
  | nullV
  | boolV (b : Bool)
  | numV (n : Int)
  | strV (s : String)
  | arrV (xs : List JSValue)
  | objV (fields : List (String × JSValue))
  | fnB (f : BuiltinFn)

/-- Association-list lookup, modelling JavaScript property/parameter lookup
by name (first binding wins, as in an object's own-property table). -/
def lookupEnv {α : Type} : List (String × α) → String → Option α
  | [], _ => none
  | (k, v) :: rest, x => if k = x then some v else lookupEnv rest x

/-- The ambient mutable world visible to expressions: the millisecond clock
returned by `Date.now()`. -/
structure World where
  now : Int

/-- JavaScript truthiness (`if (x)`, `x && y`): `undefined`, `null`,
`false`, `0` and `""` are falsy, everything else truthy. -/
def jsTruthy : JSValue → Bool
  | .undefV => false
  | .nullV => false
  | .boolV b => b
  | .numV n => n ≠ 0
  | .strV s => s.data ≠ []
  | .arrV _ => true
  | .objV _ => true
  | .fnB _ => true

mutual

/-- `String(v)` for the modelled values.  Arrays stringify as their
elements joined by commas, objects as `[object Object]`, as in
JavaScript. -/
def jsToString : JSValue → String
  | .undefV => "undefined"
  | .nullV => "null"
  | .boolV b => if b then "true" else "false"
  | .numV n => toString n
  | .strV s => s
  | .arrV xs => String.intercalate "," (jsToStringList xs)
  | .objV _ => "[object Object]"
  | .fnB _ => "function"

/-- Elementwise `String(v)` over an array's elements. -/
def jsToStringList : List JSValue → List String
  | [] => []
  | v :: vs => jsToString v :: jsToStringList vs

end

/-- The expression fragment the evaluator models concretely: an identifier,
a dotted member access, or a nullary call. -/
inductive TExpr where
  | varE (x : String)
  | memberE (e : TExpr) (field : String)
  | callE (e : TExpr)

/-- An environment: parameter or global bindings by name. -/
abbrev Env := List (String × JSValue)

/-- The ambient Node.js global scope reachable from the body of a function
built with `new Function` (the constructed function is not a closure over
the caller, but its body still sees `globalThis`, hence `process` and the
rest of the runtime).  Only the bindings the theorems mention are listed. -/
def nodeGlobals : Env :=
  [("process", .objV [("platform", .strV "linux"),
                      ("env", .objV [("HOME", .strV "/root")])])]

/-- Variable lookup as performed inside a `new Function (...keys, body)`
body: the parameters (the context keys) shadow the globals; a name bound
by neither is a `ReferenceError` (modelled by `.error`). -/
def lookupVar (ctx glob : Env) (x : String) : Except Unit JSValue :=
  match lookupEnv ctx x with
  | some v => .ok v
  | none =>
    match lookupEnv glob x with
    | some v => .ok v
    | none => .error ()

/-- Property read `v.f`: own-property lookup on objects (missing property
is `undefined`), a `TypeError` on `undefined`/`null`, and `undefined` on
the remaining primitives (whose prototype properties are not modelled). -/
def getProp (v : JSValue) (f : String) : Except Unit JSValue :=
  match v with
  | .objV fields => .ok ((lookupEnv fields f).getD .undefV)
  | .undefV => .error ()
  | .nullV => .error ()
  | _ => .ok .undefV

/-- Evaluation of the modelled expression fragment under the `new Function`
scope chain `ctx` (parameters) then `glob` (globals), in world `w`.
Applying a non-function or a helper whose body is outside the fragment is
an `.error`. -/
def evalExpr (ctx glob : Env) (w : World) : TExpr → Except Unit JSValue
  | .varE x => lookupVar ctx glob x
  | .memberE e f =>
    match evalExpr ctx glob w e with
    | .error u => .error u
    | .ok v => getProp v f
  | .callE e =>
    match evalExpr ctx glob w e with
    | .error u => .error u
    | .ok (.fnB .dateNow) => .ok (.numV w.now)
    | .ok _ => .error ()

/-- Splits a character list at every `.` (the separators are dropped). -/
def splitDots : List Char → List (List Char)
  | [] => [[]]
  | c :: rest =>
    if c = '.' then [] :: splitDots rest
    else
      match splitDots rest with
      | [] => [[c]]
      | h :: t => (c :: h) :: t

/-- A character allowed in a JavaScript identifier (ASCII fragment). -/
def isIdentChar (c : Char) : Bool :=
  c.isAlphanum || c = '_' || c = '$'

/-- Strips a trailing `()` from a name part, if present. -/
def stripCall (p : List Char) : Option (List Char) :=
  if ['(', ')'].isSuffixOf p then some (p.dropLast.dropLast) else none

/-- Parser for the modelled expression fragment: `ident(.ident)*`
optionally followed by `()`.  Anything else is outside the fragment and
maps to `none` (treated as a thrown error by `evalCode`; the real
evaluator accepts more of JavaScript, so theorems only ever instantiate
`evalCode` on codes inside the fragment). -/
def parseTiny (s : String) : Option TExpr :=
  let ps := splitDots s.data
  match ps.reverse with
  | [] => none
  | lastP :: revInit =>
    let (lastName, isCall) :=
      match stripCall lastP with
      | some base => (base, true)
      | none => (lastP, false)
    let parts := (lastName :: revInit).reverse
    if parts.all (fun p => p ≠ [] && p.all isIdentChar) then
      match parts with
      | [] => none
      | p :: rest =>
        let base := rest.foldl (fun e f => TExpr.memberE e (String.mk f))
                               (TExpr.varE (String.mk p))
        some (if isCall then TExpr.callE base else base)
    else none

/-- The evaluation oracle the source realises with
`new Function(...keys, "return " + code)(...values)`: parse the slot code
and evaluate it with the context keys as parameters shadowing the Node
globals.  A parse failure models the `SyntaxError` thrown by `new
Function` on malformed code (codes outside the modelled fragment also land
here). -/
def evalCode (ctx : Env) (w : World) (code : String) : Except Unit JSValue :=
  match parseTiny code with
  | none => .error ()
  | some e => evalExpr ctx nodeGlobals w e

/-- Is the value `undefined` or `null`?  (The render callback substitutes
`""` exactly for these.) -/
def isNullish : JSValue → Bool
  | .undefV => true
  | .nullV => true
  | _ => false

/-- The per-slot substitution performed by the replace callback
(`json-to-md.ts` lines 126-141): evaluate the code; on success substitute
`""` for `undefined`/`null` and `String(result)` otherwise; on a thrown
error return the raw matched text `${code}` unchanged and report the code
as a diagnostic (the source's `console.error`), which the model collects
in the second component. -/
def slotText (ev : String → Except Unit JSValue) (code : String) :
    String × List String :=
  match ev code with
  | .error _ => ("$\x7b" ++ code ++ "\x7d", [code])
  | .ok v => (if isNullish v then "" else jsToString v, [])

/-- Splits a character list at the first `\x7d`; `none` if there is no
closing brace at all. -/
def breakOnBrace : List Char → Option (List Char × List Char)
  | [] => none
  | c :: rest =>
    if c = '\x7d' then some ([], rest)
    else
      match breakOnBrace rest with
      | none => none
      | some (code, rest') => some (c :: code, rest')

/-- The template scan, faithful to
`template.replace(/\$\{([\s\S]+?)\}/g, callback)`: find `$` immediately
followed by `\x7b`, then the lazily shortest nonempty code ending at the
first `\x7d` (the first code character may itself be `\x7d`, since the
quantifier is `+?`); replace the match by `slotText` and continue after
it; characters not starting a match are copied verbatim.  The second
component collects the diagnostics of failing slots, in order.  `fuel` is
always called with at least the length of the list, so the fuel-exhausted
branch is unreachable. -/
def renderAux (ev : String → Except Unit JSValue) :
    Nat → List Char → List Char × List String
  | 0, l => (l, [])
  | _ + 1, [] => ([], [])
  | fuel + 1, c :: rest =>
    if c = '$' then
      match rest with
      | [] => (['$'], [])
      | d :: rest2 =>
        if d = '\x7b' then
          match rest2 with
          | [] => (['$', '\x7b'], [])
          | e :: rest3 =>
            match breakOnBrace rest3 with
            | none => ('$' :: '\x7b' :: e :: rest3, [])
            | some (tail, rest4) =>
              let s := slotText ev (String.mk (e :: tail))
              let r := renderAux ev fuel rest4
              (s.1.data ++ r.1, s.2 ++ r.2)
        else
          let r := renderAux ev fuel (d :: rest2)
          ('$' :: r.1, r.2)
    else
      let r := renderAux ev fuel rest
      (c :: r.1, r.2)

/-- The scan of a character list at the canonical fuel (its length). -/
def renderL (ev : String → Except Unit JSValue) (l : List Char) :
    List Char × List String :=
  renderAux ev l.length l

/-- `renderTemplate` (`json-to-md.ts` lines 125-143), with the evaluation
oracle abstracted: first component is the function's return value, second
the diagnostics reported through `console.error`. -/
def renderTemplate (ev : String → Except Unit JSValue) (t : String) :
    String × List String :=
  (String.mk (renderL ev t.data).1, (renderL ev t.data).2)

/-- `haystack.includes(needle)` on strings, as used by the skip check:
substring containment. -/
def jsIncludes (s pat : String) : Bool :=
  decide (pat.data <:+: s.data)

/-- The characters removed by `sanitizeFilename`
(the regex character class they belong to). -/
def badFileChar (c : Char) : Bool :=
  c = '<' || c = '>' || c = ':' || c = '"' || c = '/' || c = '\\' ||
  c = '|' || c = '?' || c = '*'

/-- `String.prototype.trim`: strip leading and trailing whitespace (the
ASCII whitespace fragment; the records of interest contain no exotic
Unicode spaces). -/
def jsTrim (s : String) : String :=
  String.mk (((s.data.dropWhile Char.isWhitespace).reverse.dropWhile
    Char.isWhitespace).reverse)

/-- `sanitizeFilename` (`json-to-md.ts` lines 62-64):
`name.replace(/[<>:"\/\\|?*]/g, '').trim()`. -/
def sanitizeFilename (name : String) : String :=
  jsTrim (String.mk (name.data.filter (fun c => !badFileChar c)))

/-- A directory entry as seen by the source locator: a file name and its
modification time (`mtime.getTime()`, in milliseconds). -/
structure DirEntry where
  name : String
  mtime : Int
deriving DecidableEq

/-- Stable insertion of an entry into a list sorted by descending `mtime`,
matching `Array.prototype.sort` (a stable sort) with the comparator
`(a, b) => b.time - a.time`: an entry moves before another only when its
time is strictly greater, so equal times keep their original order. -/
def insertDesc (x : DirEntry) : List DirEntry → List DirEntry
  | [] => [x]
  | y :: ys => if x.mtime > y.mtime then x :: y :: ys else y :: insertDesc x ys

/-- Stable sort by descending modification time (insertion sort, which is
stable, modelling the stable `Array.prototype.sort`). -/
def sortByMtimeDesc (l : List DirEntry) : List DirEntry :=
  l.foldr insertDesc []

/-- `findLatestJsonFile` (`json-to-md.ts` lines 66-75).  The directory is
`none` when `fs.existsSync(dir)` is false, otherwise the list of entries
returned by `readdirSync` with their modification times.  The source
filters names ending in `.json` and containing `SteamScrape`, sorts them
by `b.time - a.time` (descending time) and returns
`files[files.length - 1]` — the last element of the descending-sorted
array.  The model returns the chosen file name (the source additionally
joins it to the directory path). -/
def findLatestJsonFile (dir : Option (List DirEntry)) : Option String :=
  match dir with
  | none => none
  | some entries =>
    let files := sortByMtimeDesc (entries.filter (fun f =>
      ".json".data.isSuffixOf f.name.data && jsIncludes f.name "SteamScrape"))
    match files.getLast? with
    | none => none
    | some f => some f.name

/-- The outcome of one HTTPS request, as the enrichment client can observe
it: a transport error (the `'error'` event), or a complete response with
its status code and body.  The body is `none` when `JSON.parse` would
throw on it (a malformed body), otherwise the parsed JSON value. -/
inductive NetResult where
  | transportError
  | response (status : Nat) (body : Option JSValue)

/-- Property read used on parsed JSON envelopes: `json[k]` on a non-object
is `undefined` here (the envelope checks below only test truthiness). -/
def getField (v : JSValue) (k : String) : JSValue :=
  match v with
  | .objV fields => (lookupEnv fields k).getD .undefV
  | _ => .undefV

/-- `fetchSteamDetails` (`json-to-md.ts` lines 77-105).  The first
component is the resolved value (`none` for `null`), the second records
whether an HTTPS request was issued.  `appId` is `none` when the id is
absent (`undefined`); `!appId || appId === 0` short-circuits to `null`
before any request.  Afterwards: transport error resolves `null`; a body
that fails to parse resolves `null` (the `try`/`catch`); an envelope
whose `json[appId]` entry is falsy or whose `success` flag is falsy
resolves `null`; otherwise `json[appId].data` is resolved.  The HTTP
status code is never consulted. -/
def fetchSteamDetails (appId : Option Int) (net : NetResult) :
    Option JSValue × Bool :=
  match appId with
  | none => (none, false)
  | some id =>
    if id = 0 then (none, false)
    else
      match net with
      | .transportError => (none, true)
      | .response _ none => (none, true)
      | .response _ (some json) =>
        let entry := getField json (toString id)
        if jsTruthy entry && jsTruthy (getField entry "success") then
          (some (getField entry "data"), true)
        else (none, true)

/-- One input record (`GameData`, `json-to-md.ts` lines 19-26).
`playtime` and `lastPlayed` are `number | false` in the source; `none`
models `false`. -/
structure GameData where
  name : String
  steamAppID : Int
  playtime : Option ℚ
  lastPlayed : Option Int
  myAchievements : Int
  totalAchievements : Int
deriving DecidableEq

/-- `const playtime = game.playtime === false ? 0 : game.playtime`
(`json-to-md.ts` line 259). -/
def derivedPlaytime (g : GameData) : ℚ :=
  match g.playtime with
  | none => 0
  | some h => h

/-- `completionRate` (`json-to-md.ts` lines 261-263):
`totalAchievements > 0 ? Math.round((my / total) * 100) : 0`. -/
def completionRate (g : GameData) : ℤ :=
  if g.totalAchievements > 0 then
    round ((g.myAchievements / g.totalAchievements : ℚ) * 100)
  else 0

/-- The fixed inter-record delay `DELAY_MS` (`json-to-md.ts` line 16). -/
def DELAY_MS : Nat := 1200

/-- The observable side effects of the conversion loop, in program order:
an HTTPS fetch for an app id, a file write, the skip branch, a progress
checkpoint (percent complete and estimated remaining milliseconds), and
the rate-limit sleep. -/
inductive Event where
  | fetchEv (appId : Int)
  | writeEv (path : String)
  | skipEv
  | checkEv (percent : Int) (remainingMs : Nat)
  | sleepEv (ms : Nat)
deriving DecidableEq

/-- The output directory as a map from file name to content. -/
abbrev FileSys := List (String × String)

/-- A file write (`fs.writeFileSync`): the new binding shadows any older
one. -/
def insertFS (fs : FileSys) (k v : String) : FileSys :=
  (k, v) :: fs

/-- The smart-skip check (`json-to-md.ts` lines 241-249): the file exists
and its content contains `image: "http` or `cover_url: "http`. -/
def hasSkipMarker (content : String) : Bool :=
  jsIncludes content "image: \"http" || jsIncludes content "cover_url: \"http"

/-- Whether the loop skips a record: its artifact exists and bears the
skip marker. -/
def skipCheck (fs : FileSys) (g : GameData) : Bool :=
  match lookupEnv fs (sanitizeFilename g.name ++ ".md") with
  | some content => hasSkipMarker content
  | none => false

/-- `updateStep` (`json-to-md.ts` lines 227-232): `Math.ceil(n / 10)` for
`n ≥ 100` (on naturals, `(n + 9) / 10`), `10` for `10 ≤ n < 100`, else
`0` (no periodic checkpoint). -/
def updateStep (n : Nat) : Nat :=
  if n ≥ 100 then (n + 9) / 10
  else if n ≥ 10 then 10
  else 0

/-- One iteration of the conversion loop (`json-to-md.ts` lines 235-327)
for the record at 0-based `idx` of a batch of `nGames` records, given the
per-run checkpoint `step`.  `oracle` abstracts the enrichment fetch
outcome and `render` the rendered artifact text (the loop passes the
rendered content of `renderTemplate` there; the theorems that need the
concrete rendering instantiate `render` accordingly).  Returns the
file system after the iteration and the trace of its effects. -/
def processGame (oracle : Int → Option JSValue)
    (render : GameData → Option JSValue → String)
    (nGames step idx : Nat) (fs : FileSys) (g : GameData) :
    FileSys × List Event :=
  if skipCheck fs g then (fs, [.skipEv])
  else
    let filePath := sanitizeFilename g.name ++ ".md"
    let fetches := g.steamAppID ≠ 0
    let storeData := if fetches then oracle g.steamAppID else none
    let fs' := insertFS fs filePath (render g storeData)
    let checkEvts :=
      if step > 0 ∧ (idx + 1) % step = 0 ∧ idx + 1 ≠ nGames then
        [Event.checkEv (round ((((idx : ℚ) + 1) / nGames) * 100))
          ((nGames - (idx + 1)) * DELAY_MS)]
      else []
    (fs', (if fetches then [Event.fetchEv g.steamAppID] else []) ++
      [Event.writeEv filePath] ++ checkEvts ++ [Event.sleepEv DELAY_MS])

/-- The conversion loop from index `idx` over the remaining records. -/
def runGamesAux (oracle : Int → Option JSValue)
    (render : GameData → Option JSValue → String) (nGames step : Nat) :
    Nat → FileSys → List GameData → FileSys × List Event
  | _, fs, [] => (fs, [])
  | idx, fs, g :: gs =>
    let r := processGame oracle render nGames step idx fs g
    let rest := runGamesAux oracle render nGames step (idx + 1) r.1 gs
    (rest.1, r.2 ++ rest.2)

/-- The whole conversion run over a batch (`runConversion`'s loop with
`updateStep` computed from the batch size). -/
def runConversionModel (oracle : Int → Option JSValue)
    (render : GameData → Option JSValue → String)
    (games : List GameData) (fs : FileSys) : FileSys × List Event :=
  runGamesAux oracle render games.length (updateStep games.length) 0 fs games

/-- Rate-limit audit of a trace: the `Bool` state records whether a fetch
has happened with no (sufficient) sleep after it yet.  A fetch while one
is still owed is a spacing violation (`none`); otherwise the final owing
state is returned.  A sleep of at least `DELAY_MS` clears the debt. -/
def spacingRun : Bool → List Event → Option Bool
  | owe, [] => some owe
  | owe, .fetchEv _ :: t => if owe then none else spacingRun true t
  | owe, .sleepEv n :: t =>
    if DELAY_MS ≤ n then spacingRun false t else spacingRun owe t
  | owe, .writeEv _ :: t => spacingRun owe t
  | owe, .skipEv :: t => spacingRun owe t
  | owe, .checkEv _ _ :: t => spacingRun owe t

/-- Is an event a rate-limit sleep? -/
def isSleepEv : Event → Bool
  | .sleepEv _ => true
  | _ => false

/-- Is an event a progress checkpoint? -/
def isCheckEv : Event → Bool
  | .checkEv _ _ => true
  | _ => false

/-- Is an event a fetch? -/
def isFetchEv : Event → Bool
  | .fetchEv _ => true
  | _ => false

/-- A template, structured: literal text interleaved with expression
slots.  `flatten` recovers the raw template string the engine receives. -/
inductive Seg where
  | lit (s : String)
  | slot (code : String)

/-- The raw text of one segment (`slot c` prints as the delimited
`${c}`). -/
def flattenSeg : Seg → String
  | .lit s => s
  | .slot c => "$\x7b" ++ c ++ "\x7d"

/-- The raw template string of a segment list. -/
def flatten (segs : List Seg) : String :=
  String.join (segs.map flattenSeg)

/-- A segment the scanner parses back unambiguously: literal text
containing no `$\x7b` and not ending in `$`, and slot codes that are
nonempty and free of the closing delimiter. -/
def goodSegB : Seg → Bool
  | .lit s => !(decide (['$', '\x7b'] <:+: s.data)) && !(decide (['$'] <:+ s.data))
  | .slot c => !(decide (c.data = [])) && !(decide ('\x7d' ∈ c.data))

/-- The substitution the specification prescribes for one segment:
literal text verbatim; a slot becomes `""` when its expression evaluates
to `undefined`/`null`, the value's textual representation otherwise, and
stays as its raw delimited text when evaluation throws. -/
def renderedSeg (ev : String → Except Unit JSValue) : Seg → String
  | .lit s => s
  | .slot c => (slotText ev c).1

/-- The diagnostics a segment reports: none for literals, the slot code
when its evaluation throws. -/
def diagsSeg (ev : String → Except Unit JSValue) : Seg → List String
  | .lit _ => []
  | .slot c => (slotText ev c).2

/-- The expression codes of a template's slots, in source order. -/
def slotCodesSegs (segs : List Seg) : List String :=
  segs.foldr (fun s acc => match s with | .lit _ => acc | .slot c => c :: acc) []

/-- The pattern `"http` (a double quote followed by `http`), contained in
both skip-marker substrings `image: "http` and `cover_url: "http`. -/
def qhPat : List Char := ['"', 'h', 't', 't', 'p']

/-- Knuth-Morris-Pratt style automaton for searching `"http`: state `s`
means the last characters read end with the length-`s` prefix of the
pattern; state `5` (the pattern has occurred) is absorbing. -/
def qhStep (s : Nat) (c : Char) : Nat :=
  if 5 ≤ s then 5
  else if s = 4 ∧ c = 'p' then 5
  else if c = '"' then 1
  else if s = 1 ∧ c = 'h' then 2
  else if s = 2 ∧ c = 't' then 3
  else if s = 3 ∧ c = 't' then 4
  else 0

/-- Running the `"http` automaton over a character list. -/
def qhRun (s : Nat) (l : List Char) : Nat :=
  l.foldl qhStep s

/-- A literal chunk that resets the automaton: from any live state the
chunk neither completes the pattern nor leaves a partial match pending.
All literal chunks of the default template have this property. -/
def qhResets (l : List Char) : Prop :=
  ∀ s, s ≤ 4 → qhRun s l = 0

/-- Decidable version of `qhResets` over the five live states. -/
def qhResetsB (l : List Char) : Bool :=
  (List.range 5).all (fun s => qhRun s l == 0)

/-- A segment list in which every expression slot is immediately preceded
by a literal chunk (the flag records whether the previous segment was a
literal).  The default template has this shape, which guarantees that the
`"http` automaton enters every substituted value in its initial state. -/
def guardedAux : Bool → List Seg → Bool
  | _, [] => true
  | _, .lit _ :: rest => guardedAux true rest
  | flag, .slot _ :: rest => flag && guardedAux false rest

/-- The built-in default template `DEFAULT_TEMPLATE` (`json-to-md.ts`
lines 146-187), as the interleaving of its literal chunks and expression
slots.  Two details of the source template literal matter:
the interpolation on line 147 is written `${...}` (unescaped), so
TypeScript evaluates it when the module loads — `"game.name".replace(/"/g,
'\\"')` is just the text `game.name`, which therefore appears literally in
the template — while all the other slots are escaped (`\${...}`) and reach
the render-time scanner; and `'\\n'` inside the slot codes denotes the
two-character sequence backslash-`n` in the template string. -/
def defaultTemplateSegs : List Seg :=
  [.lit "---\ntitle: \"[[game.name]]\"\nreleaseDate: ",
   .slot "releaseDateStr",
   .lit "\ndevelopers:\n",
   .slot "storeData?.developers?.map(d => toWikiLink(d)).join(\x27\\n\x27) || \"\"",
   .lit "\npublishers:\n",
   .slot "storeData?.publishers?.map(p => toWikiLink(p)).join(\x27\\n\x27) || \"\"",
   .lit "\ngenres:\n",
   .slot "storeData?.genres?.map(g => toWikiLink(g.description)).join(\x27\\n\x27) || \"\"",
   .lit "\nurl: https://store.steampowered.com/app/",
   .slot "game.steamAppID",
   .lit "\nreleased: ",
   .slot "isReleased",
   .lit "\nmetacriticRating: ",
   .slot "storeData?.metacritic?.score || 0",
   .lit "\nplayed: ",
   .slot "playtime > 0",
   .lit "\nplaytimeHours: ",
   .slot "playtime",
   .lit "\nachievementsTotal: ",
   .slot "game.totalAchievements",
   .lit "\nachievementsUnlocked: ",
   .slot "game.myAchievements",
   .lit "\ncompletionRate: ",
   .slot "completionRate",
   .lit "%\npersonalRating: 0\ntype: game\nplatform: steam\nid: ",
   .slot "game.steamAppID",
   .lit "\ntags: \n  - steamgame\n  - ",
   .slot "playtime > 0 ? (playtime > 2 ? \"status/playing\" : \"status/backlog\") : \"status/wishlist\"",
   .lit "\nimage: ",
   .slot "storeData?.header_image || \"\"",
   .lit "\n---\n![Cover](",
   .slot "storeData?.header_image || \"\"",
   .lit ")\n\n> [!summary] Description\n> ",
   .slot "summary",
   .lit "\n\n# My Stats\n- **Status**: ",
   .slot "playtime > 0 ? (playtime > 2 ? \"Playing\" : \"Backlog\") : \"Wishlist/Backlog\"",
   .lit "\n- **Playtime**: ",
   .slot "formatDuration(playtime * 3600000)",
   .lit " (",
   .slot "playtime",
   .lit " hours)\n- **Last Played**: ",
   .slot "game.lastPlayed ? new Date(Number(game.lastPlayed) * 1000).toLocaleDateString() : \"Never\"",
   .lit "\n- **Completion**: ",
   .slot "completionRate",
   .lit "% (",
   .slot "game.myAchievements",
   .lit "/",
   .slot "game.totalAchievements",
   .lit ")\n\n# Links\n- [Steam Store](https://store.steampowered.com/app/",
   .slot "game.steamAppID",
   .lit ")\n- [ProtonDB (Linux/Deck Compatibility)](https://www.protondb.com/app/",
   .slot "game.steamAppID",
   .lit ")\n- [SteamDB](https://steamdb.info/app/",
   .slot "game.steamAppID",
   .lit "/)\n"]

/-- The default template as the raw string the engine scans. -/
def DEFAULT_TEMPLATE : String :=
  flatten defaultTemplateSegs

/-- A context shaped like the one `runConversion` builds (`json-to-md.ts`
lines 294-309): the record, the (here absent) store data, the derived
values, the two helper functions and the `Math`/`Date` globals it passes
explicitly.  Note that `process` is *not* among its keys. -/
def demoCtx : Env :=
  [("game", .objV [("name", .strV "Portal"), ("steamAppID", .numV 400),
     ("playtime", .numV 12), ("lastPlayed", .numV 1700000000),
     ("myAchievements", .numV 5), ("totalAchievements", .numV 15)]),
   ("storeData", .nullV),
   ("playtime", .numV 12),
   ("completionRate", .numV 33),
   ("releaseDateStr", .strV "2007-10-10"),
   ("isReleased", .boolV true),
   ("steamFeatures", .arrV []),
   ("summary", .strV "A puzzle game."),
   ("formatDuration", .fnB (.helperFn "formatDuration")),
   ("toWikiLink", .fnB (.helperFn "toWikiLink")),
   ("Math", .objV []),
   ("Date", .objV [("now", .fnB .dateNow)])]

/-- A small structured template used to exercise the render theorems: two
evaluable slots (one of them null-valued) and one throwing slot. -/
def demoSegs : List Seg :=
  [.lit "A ", .slot "name", .lit " B ", .slot "nil", .lit " C ",
   .slot "boom", .lit " D"]

/-- Evaluation oracle for `demoSegs`: `name` is a string, `nil` is `null`,
everything else throws. -/
def demoEv : String → Except Unit JSValue := fun code =>
  if code = "name" then .ok (.strV "World")
  else if code = "nil" then .ok .nullV
  else .error ()

/-- The record of the specification's scenario: title `Foo: Bar`, external
id `0`, absent playtime, never-played, 0 of 10 achievements. -/
def fooGame : GameData :=
  ⟨"Foo: Bar", 0, none, none, 0, 10⟩

/-- A batch of exactly ten records with distinct titles, zero ids. -/
def games10 : List GameData :=
  (List.range 10).map (fun i => ⟨"g" ++ toString i, 0, none, none, 0, 0⟩)

/-- Evaluation outcomes of the default template's slots for a concrete
enriched record (steam id 620), as `new Function` evaluation would produce
them, except that the fetched `storeData.header_image` happens to be the
string `"http://cdn.example/hdr.jpg` — whose first character is a double
quote.  That field value contains neither `image: "http` nor
`cover_url: "http`. -/
def cEv10Table : List (String × JSValue) :=
  [("releaseDateStr", .strV "2007-10-10"),
   ("storeData?.developers?.map(d => toWikiLink(d)).join(\x27\\n\x27) || \"\"",
    .strV "  - \"[[Valve]]\""),
   ("storeData?.publishers?.map(p => toWikiLink(p)).join(\x27\\n\x27) || \"\"",
    .strV "  - \"[[Valve]]\""),
   ("storeData?.genres?.map(g => toWikiLink(g.description)).join(\x27\\n\x27) || \"\"",
    .strV "  - \"[[Action]]\""),
   ("game.steamAppID", .numV 620),
   ("isReleased", .boolV true),
   ("storeData?.metacritic?.score || 0", .numV 88),
   ("playtime > 0", .boolV false),
   ("playtime", .numV 0),
   ("game.totalAchievements", .numV 10),
   ("game.myAchievements", .numV 0),
   ("completionRate", .numV 0),
   ("playtime > 0 ? (playtime > 2 ? \"status/playing\" : \"status/backlog\") : \"status/wishlist\"",
    .strV "status/wishlist"),
   ("storeData?.header_image || \"\"", .strV "\"http://cdn.example/hdr.jpg"),
   ("summary", .strV "A puzzle game."),
   ("playtime > 0 ? (playtime > 2 ? \"Playing\" : \"Backlog\") : \"Wishlist/Backlog\"",
    .strV "Wishlist/Backlog"),
   ("formatDuration(playtime * 3600000)", .strV "0 minutes and 0 seconds"),
   ("game.lastPlayed ? new Date(Number(game.lastPlayed) * 1000).toLocaleDateString() : \"Never\"",
    .strV "Never")]

/-- The oracle reading `cEv10Table`. -/
def cEv10 : String → Except Unit JSValue := fun code =>
  match lookupEnv cEv10Table code with
  | some v => .ok v
  | none => .error ()

/-- The same evaluation outcomes with an ordinary header image URL
(`http://cdn.example/hdr.jpg`, no leading quote): no substituted value
contains `"http`. -/
def cEvCleanTable : List (String × JSValue) :=
  cEv10Table.map (fun kv =>
    if kv.1 = "storeData?.header_image || \"\"" then
      (kv.1, JSValue.strV "http://cdn.example/hdr.jpg")
    else kv)

/-- The oracle reading `cEvCleanTable`. -/
def cEvClean : String → Except Unit JSValue := fun code =>
  match lookupEnv cEvCleanTable code with
  | some v => .ok v
  | none => .error ()

/-! ## Helper lemmas -/

theorem breakOnBrace_eq : ∀ {l code rest : List Char},
    breakOnBrace l = some (code, rest) → l = code ++ '\x7d' :: rest := by
  intro l
  induction l with
  | nil => intro code rest h; simp [breakOnBrace] at h
  | cons c cs ih =>
    intro code rest h
    by_cases hc : c = '\x7d'
    · subst hc
      simp [breakOnBrace] at h
      obtain ⟨h1, h2⟩ := h
      subst h1; subst h2; rfl
    · simp [breakOnBrace, hc] at h
      match hb : breakOnBrace cs with
      | none => rw [hb] at h; simp at h
      | some (code', rest') =>
        rw [hb] at h
        simp at h
        obtain ⟨h1, h2⟩ := h
        subst h1; subst h2
        simpa using congrArg (c :: ·) (ih hb)

theorem breakOnBrace_append : ∀ {code : List Char} (rest : List Char),
    ¬ '\x7d' ∈ code → breakOnBrace (code ++ '\x7d' :: rest) = some (code, rest) := by
  intro code
  induction code with
  | nil => intro rest _; simp [breakOnBrace]
  | cons c cs ih =>
    intro rest h
    have hc : c ≠ '\x7d' := by intro hx; exact h (by simp [hx])
    have hcs : ¬ '\x7d' ∈ cs := by intro hx; exact h (by simp [hx])
    simp [breakOnBrace, hc, ih rest hcs]

theorem breakOnBrace_none : ∀ {l : List Char}, ¬ '\x7d' ∈ l → breakOnBrace l = none := by
  intro l
  induction l with
  | nil => intro _; rfl
  | cons c cs ih =>
    intro h
    have hc : c ≠ '\x7d' := by intro hx; exact h (by simp [hx])
    have hcs : ¬ '\x7d' ∈ cs := by intro hx; exact h (by simp [hx])
    simp [breakOnBrace, hc, ih hcs]

theorem renderAux_fuel (ev : String → Except Unit JSValue) :
    ∀ (n : Nat) (l : List Char), l.length ≤ n →
    ∀ f g, l.length ≤ f → l.length ≤ g → renderAux ev f l = renderAux ev g l := by
  intro n
  induction n with
  | zero =>
    intro l hl f g _ _
    have hemp : l = [] := by cases l with | nil => rfl | cons a b => simp at hl
    subst hemp
    cases f <;> cases g <;> rfl
  | succ n ihn =>
    intro l hl f g hf hg
    cases l with
    | nil => cases f <;> cases g <;> rfl
    | cons c rest =>
      obtain ⟨f', rfl⟩ : ∃ f', f = f' + 1 := by
        cases f with | zero => simp at hf | succ k => exact ⟨k, rfl⟩
      obtain ⟨g', rfl⟩ : ∃ g', g = g' + 1 := by
        cases g with | zero => simp at hg | succ k => exact ⟨k, rfl⟩
      have hrn : rest.length ≤ n := by simpa using hl
      have hrf : rest.length ≤ f' := by simpa using hf
      have hrg : rest.length ≤ g' := by simpa using hg
      by_cases hc : c = '$'
      · subst hc
        cases rest with
        | nil => rfl
        | cons d rest2 =>
          by_cases hd : d = '\x7b'
          · subst hd
            cases rest2 with
            | nil => rfl
            | cons e rest3 =>
              cases hb : breakOnBrace rest3 with
              | none => simp [renderAux, hb]
              | some p =>
                obtain ⟨tail, rest4⟩ := p
                have he := breakOnBrace_eq hb
                have h4 : rest4.length ≤ rest3.length := by
                  rw [he]; simp only [List.length_append, List.length_cons]; omega
                have h3 : rest3.length + 2 ≤ n := by simpa using hrn
                have h3f : rest3.length + 2 ≤ f' := by simpa using hrf
                have h3g : rest3.length + 2 ≤ g' := by simpa using hrg
                have hrec := ihn rest4 (by omega) f' g' (by omega) (by omega)
                simp [renderAux, hb, hrec]
          · have h2n : (d :: rest2).length ≤ n := by simpa using hrn
            have hrec := ihn (d :: rest2) h2n f' g' (by simpa using hrf)
              (by simpa using hrg)
            simp only [renderAux]
            rw [if_neg hd, if_neg hd, hrec]
      · have hrec := ihn rest hrn f' g' hrf hrg
        simp only [renderAux]
        rw [if_neg hc, if_neg hc, hrec]

theorem renderL_canon (ev : String → Except Unit JSValue) (f : Nat)
    (l : List Char) (hf : l.length ≤ f) : renderAux ev f l = renderL ev l :=
  renderAux_fuel ev l.length l le_rfl f l.length hf le_rfl

theorem renderAux_not_dollar (ev : String → Except Unit JSValue) (f : Nat)
    (c : Char) (rest : List Char) (hc : c ≠ '$') :
    renderAux ev (f + 1) (c :: rest) =
      ((c :: (renderAux ev f rest).1), (renderAux ev f rest).2) := by
  simp [renderAux, hc]

theorem renderAux_dollar_end (ev : String → Except Unit JSValue) (f : Nat) :
    renderAux ev (f + 1) ['$'] = (['$'], []) := by
  simp [renderAux]

theorem renderAux_dollar_not_brace (ev : String → Except Unit JSValue)
    (f : Nat) (d : Char) (rest2 : List Char) (hd : d ≠ '\x7b') :
    renderAux ev (f + 1) ('$' :: d :: rest2) =
      (('$' :: (renderAux ev f (d :: rest2)).1),
        (renderAux ev f (d :: rest2)).2) := by
  simp [renderAux, hd]

theorem renderAux_slot (ev : String → Except Unit JSValue) (f : Nat)
    (e : Char) (rest3 tail rest4 : List Char)
    (hb : breakOnBrace rest3 = some (tail, rest4)) :
    renderAux ev (f + 1) ('$' :: '\x7b' :: e :: rest3) =
      ((slotText ev (String.mk (e :: tail))).1.data ++ (renderAux ev f rest4).1,
        (slotText ev (String.mk (e :: tail))).2 ++ (renderAux ev f rest4).2) := by
  simp [renderAux, hb]

theorem renderAux_no_close (ev : String → Except Unit JSValue) (f : Nat)
    (e : Char) (rest3 : List Char) (hb : breakOnBrace rest3 = none) :
    renderAux ev (f + 1) ('$' :: '\x7b' :: e :: rest3) =
      ('$' :: '\x7b' :: e :: rest3, []) := by
  simp [renderAux, hb]

theorem renderL_lit (ev : String → Except Unit JSValue) :
    ∀ (l rest : List Char), ¬ (['$', '\x7b'] <:+: l) → ¬ (['$'] <:+ l) →
    renderL ev (l ++ rest) =
      (l ++ (renderL ev rest).1, (renderL ev rest).2) := by
  intro l
  induction l with
  | nil => intro rest _ _; simp
  | cons c l' ih =>
    intro rest hinf hsuf
    have hinf' : ¬ (['$', '\x7b'] <:+: l') := fun h =>
      hinf (List.infix_cons h)
    have hrec0 := ih rest hinf'
    by_cases hc : c = '$'
    · subst hc
      cases l' with
      | nil => exact absurd (List.suffix_refl _) hsuf
      | cons d l'' =>
        have hd : d ≠ '\x7b' := by
          intro hx
          subst hx
          exact hinf ⟨[], l'', by simp⟩
        have hsuf' : ¬ (['$'] <:+ d :: l'') := fun h =>
          hsuf (h.trans (List.suffix_cons _ _))
        have hrec := hrec0 hsuf'
        show renderL ev ('$' :: ((d :: l'') ++ rest)) = _
        simp only [List.cons_append] at hrec ⊢
        simp only [renderL, List.length_cons]
        rw [renderAux_dollar_not_brace ev _ _ _ hd]
        have hcan : renderAux ev ((l'' ++ rest).length + 1) (d :: (l'' ++ rest)) =
            renderL ev (d :: (l'' ++ rest)) := rfl
        rw [hcan, hrec]
        simp [renderL]
    · have hsuf' : ¬ (['$'] <:+ l') := fun h =>
        hsuf (h.trans (List.suffix_cons _ _))
      have hrec := hrec0 hsuf'
      show renderL ev (c :: (l' ++ rest)) = _
      simp only [renderL, List.length_cons]
      rw [renderAux_not_dollar ev _ _ _ hc]
      have hcan : renderAux ev (l' ++ rest).length (l' ++ rest) =
          renderL ev (l' ++ rest) := rfl
      rw [hcan, hrec]
      simp [renderL]

theorem renderL_slot (ev : String → Except Unit JSValue) (code rest : List Char)
    (hne : code ≠ []) (hnc : ¬ '\x7d' ∈ code) :
    renderL ev ('$' :: '\x7b' :: (code ++ '\x7d' :: rest)) =
      ((slotText ev (String.mk code)).1.data ++ (renderL ev rest).1,
        (slotText ev (String.mk code)).2 ++ (renderL ev rest).2) := by
  obtain ⟨e, tail, rfl⟩ : ∃ e tail, code = e :: tail := by
    cases code with
    | nil => exact absurd rfl hne
    | cons e tail => exact ⟨e, tail, rfl⟩
  have htail : ¬ '\x7d' ∈ tail := fun h => hnc (by simp [h])
  have hb : breakOnBrace (tail ++ '\x7d' :: rest) = some (tail, rest) :=
    breakOnBrace_append rest htail
  simp only [List.cons_append, renderL, List.length_cons]
  rw [renderAux_slot ev _ _ _ _ _ hb]
  rw [renderL_canon ev ((tail ++ '\x7d' :: rest).length + 2) rest
    (by simp [List.length_append]; omega)]
  rfl

theorem data_foldl_append : ∀ (l : List String) (acc : String),
    (l.foldl (· ++ ·) acc).data = acc.data ++ (l.map String.data).join := by
  intro l
  induction l with
  | nil => intro acc; simp
  | cons s rest ih =>
    intro acc
    simp [List.foldl_cons, ih, String.data_append]

theorem data_join (l : List String) :
    (String.join l).data = (l.map String.data).join := by
  simpa using data_foldl_append l ""

theorem data_flatten_cons (s : Seg) (segs : List Seg) :
    (flatten (s :: segs)).data = (flattenSeg s).data ++ (flatten segs).data := by
  simp [flatten, data_join]

theorem renderL_flatten (ev : String → Except Unit JSValue) :
    ∀ segs : List Seg, (∀ s ∈ segs, goodSegB s = true) →
    renderL ev (flatten segs).data =
      (((segs.map (renderedSeg ev)).map String.data).join,
       (segs.map (diagsSeg ev)).join) := by
  intro segs
  induction segs with
  | nil => intro _; simp [flatten, String.join]; rfl
  | cons s segs ih =>
    intro h
    have hs := h s (by simp)
    have hrest : ∀ x ∈ segs, goodSegB x = true := fun x hx => h x (by simp [hx])
    have hih := ih hrest
    rw [data_flatten_cons]
    cases s with
    | lit t =>
      simp only [goodSegB, Bool.and_eq_true, Bool.not_eq_true',
        decide_eq_false_iff_not] at hs
      have hf : (flattenSeg (Seg.lit t)).data = t.data := rfl
      rw [hf, renderL_lit ev _ _ hs.1 hs.2, hih]
      simp [renderedSeg, diagsSeg]
    | slot c =>
      simp only [goodSegB, Bool.and_eq_true, Bool.not_eq_true',
        decide_eq_false_iff_not] at hs
      have hshape : (flattenSeg (Seg.slot c)).data ++ (flatten segs).data =
          '$' :: '\x7b' :: (c.data ++ '\x7d' :: (flatten segs).data) := by
        simp [flattenSeg, String.data_append]
      rw [hshape, renderL_slot ev c.data _ hs.1 hs.2, hih]
      have hmk : String.mk c.data = c := rfl
      simp [hmk, renderedSeg, diagsSeg]

theorem renderTemplate_flatten (ev : String → Except Unit JSValue)
    (segs : List Seg) (h : ∀ s ∈ segs, goodSegB s = true) :
    renderTemplate ev (flatten segs) =
      (String.join (segs.map (renderedSeg ev)),
       (segs.map (diagsSeg ev)).join) := by
  have hl := renderL_flatten ev segs h
  have h1 : (renderL ev (flatten segs).data).1 =
      ((segs.map (renderedSeg ev)).map String.data).join := by rw [hl]
  have h2 : (renderL ev (flatten segs).data).2 =
      (segs.map (diagsSeg ev)).join := by rw [hl]
  have hmk : String.mk ((segs.map (renderedSeg ev)).map String.data).join =
      String.join (segs.map (renderedSeg ev)) := by
    rw [← data_join]
  simp only [renderTemplate, h1, h2, hmk]

theorem slotCodesSegs_mem : ∀ (segs : List Seg) (c : String),
    Seg.slot c ∈ segs → c ∈ slotCodesSegs segs := by
  intro segs
  induction segs with
  | nil => intro c h; simp at h
  | cons s rest ih =>
    intro c h
    rcases List.mem_cons.mp h with h1 | h2
    · subst h1; simp [slotCodesSegs]
    · cases s with
      | lit t => simpa [slotCodesSegs] using ih c h2
      | slot c' => simp [slotCodesSegs]; right; exact ih c h2

theorem renderTemplate_oracle_congr (ev₁ ev₂ : String → Except Unit JSValue)
    (segs : List Seg) (hgood : ∀ s ∈ segs, goodSegB s = true)
    (hagree : ∀ c ∈ slotCodesSegs segs, ev₁ c = ev₂ c) :
    renderTemplate ev₁ (flatten segs) = renderTemplate ev₂ (flatten segs) := by
  rw [renderTemplate_flatten ev₁ segs hgood, renderTemplate_flatten ev₂ segs hgood]
  have hmap : segs.map (renderedSeg ev₁) = segs.map (renderedSeg ev₂) := by
    apply List.map_congr_left
    intro s hs
    cases s with
    | lit t => rfl
    | slot c =>
      have := hagree c (slotCodesSegs_mem segs c hs)
      simp [renderedSeg, slotText, this]
  have hdiag : segs.map (diagsSeg ev₁) = segs.map (diagsSeg ev₂) := by
    apply List.map_congr_left
    intro s hs
    cases s with
    | lit t => rfl
    | slot c =>
      have := hagree c (slotCodesSegs_mem segs c hs)
      simp [diagsSeg, slotText, this]
  rw [hmap, hdiag]

theorem processGame_skip (oracle : Int → Option JSValue)
    (render : GameData → Option JSValue → String) (n st i : Nat)
    (fs : FileSys) (g : GameData) (h : skipCheck fs g = true) :
    processGame oracle render n st i fs g = (fs, [.skipEv]) := by
  simp [processGame, h]

theorem processGame_marker_preserved (oracle : Int → Option JSValue)
    (render : GameData → Option JSValue → String) (n st i : Nat)
    (fs : FileSys) (g : GameData) (path content : String)
    (hl : lookupEnv fs path = some content)
    (hm : hasSkipMarker content = true) :
    lookupEnv (processGame oracle render n st i fs g).1 path = some content := by
  by_cases hs : skipCheck fs g = true
  · rw [processGame_skip oracle render n st i fs g hs]
    exact hl
  · have hs' : skipCheck fs g = false := by simpa using hs
    simp only [processGame, hs', Bool.false_eq_true, if_false]
    by_cases hp : sanitizeFilename g.name ++ ".md" = path
    · exfalso
      apply hs
      rw [skipCheck, hp, hl]
      exact hm
    · simp [insertFS, lookupEnv, hp]
      exact hl

theorem runGamesAux_marker_preserved (oracle : Int → Option JSValue)
    (render : GameData → Option JSValue → String) (n st : Nat) :
    ∀ (gs : List GameData) (i : Nat) (fs : FileSys) (path content : String),
    lookupEnv fs path = some content → hasSkipMarker content = true →
    lookupEnv (runGamesAux oracle render n st i fs gs).1 path = some content := by
  intro gs
  induction gs with
  | nil => intro i fs path content hl _; exact hl
  | cons g gs ih =>
    intro i fs path content hl hm
    simp only [runGamesAux]
    exact ih (i + 1) _ path content
      (processGame_marker_preserved oracle render n st i fs g path content hl hm) hm

theorem spacingRun_append : ∀ (xs ys : List Event) (b : Bool),
    spacingRun b (xs ++ ys) =
      (spacingRun b xs).bind (fun b' => spacingRun b' ys) := by
  intro xs
  induction xs with
  | nil => intro ys b; simp [spacingRun]
  | cons x xs ih =>
    intro ys b
    cases x with
    | fetchEv a =>
      by_cases hb : b
      · simp [spacingRun, hb]
      · simp [spacingRun, hb, ih]
    | sleepEv m =>
      by_cases hm : DELAY_MS ≤ m
      · simp [spacingRun, hm, ih]
      · simp [spacingRun, hm, ih]
    | writeEv p => simp [spacingRun, ih]
    | skipEv => simp [spacingRun, ih]
    | checkEv p r => simp [spacingRun, ih]

theorem processGame_spacing (oracle : Int → Option JSValue)
    (render : GameData → Option JSValue → String) (n st i : Nat)
    (fs : FileSys) (g : GameData) :
    spacingRun false (processGame oracle render n st i fs g).2 = some false := by
  by_cases hs : skipCheck fs g = true
  · rw [processGame_skip oracle render n st i fs g hs]
    rfl
  · have hs' : skipCheck fs g = false := by simpa using hs
    simp only [processGame, hs', Bool.false_eq_true, if_false]
    by_cases hf : g.steamAppID ≠ 0 <;>
      by_cases hc : st > 0 ∧ (i + 1) % st = 0 ∧ i + 1 ≠ n <;>
        simp [hf, hc, spacingRun, DELAY_MS]

theorem runGamesAux_spacing (oracle : Int → Option JSValue)
    (render : GameData → Option JSValue → String) (n st : Nat) :
    ∀ (gs : List GameData) (i : Nat) (fs : FileSys),
    spacingRun false (runGamesAux oracle render n st i fs gs).2 = some false := by
  intro gs
  induction gs with
  | nil => intro i fs; rfl
  | cons g gs ih =>
    intro i fs
    simp only [runGamesAux, spacingRun_append,
      processGame_spacing oracle render n st i fs g, Option.bind]
    exact ih (i + 1) _

theorem updateStep_ceil (n : ℕ) (h : 100 ≤ n) :
    (updateStep n : ℤ) = ⌈(n : ℚ) / 10⌉ := by
  have hu : updateStep n = (n + 9) / 10 := by simp [updateStep, h]
  set m : ℕ := (n + 9) / 10 with hmdef
  have hd := Nat.div_add_mod (n + 9) 10
  have hmod := Nat.mod_lt (n + 9) (show 0 < 10 by norm_num)
  have hz1 : ((m : ℤ) - 1) * 10 < (n : ℤ) := by omega
  have hz2 : (n : ℤ) ≤ (m : ℤ) * 10 := by omega
  rw [hu, eq_comm, Int.ceil_eq_iff]
  constructor
  · rw [lt_div_iff (by norm_num : (0 : ℚ) < 10)]
    exact_mod_cast hz1
  · rw [div_le_iff (by norm_num : (0 : ℚ) < 10)]
    exact_mod_cast hz2

theorem updateStep_mid (n : ℕ) (h1 : 10 ≤ n) (h2 : n < 100) :
    updateStep n = 10 := by
  simp [updateStep, h1, show ¬ 100 ≤ n by omega]

theorem updateStep_small (n : ℕ) (h : n < 10) : updateStep n = 0 := by
  simp [updateStep, show ¬ 100 ≤ n by omega, show ¬ 10 ≤ n by omega]

theorem processGame_checkpoints (oracle : Int → Option JSValue)
    (render : GameData → Option JSValue → String) (n st i : Nat)
    (fs : FileSys) (g : GameData) (h : skipCheck fs g = false) :
    (processGame oracle render n st i fs g).2.filter isCheckEv =
      if 0 < st ∧ (i + 1) % st = 0 ∧ i + 1 ≠ n then
        [.checkEv (round ((((i : ℚ) + 1) / n) * 100)) ((n - (i + 1)) * DELAY_MS)]
      else [] := by
  simp only [processGame, h, Bool.false_eq_true, if_false]
  by_cases hf : g.steamAppID ≠ 0 <;>
    by_cases hc : st > 0 ∧ (i + 1) % st = 0 ∧ i + 1 ≠ n <;>
      simp [hf, hc, isCheckEv]

theorem processGame_skip_quiet (oracle : Int → Option JSValue)
    (render : GameData → Option JSValue → String) (n st i : Nat)
    (fs : FileSys) (g : GameData) (h : skipCheck fs g = true) :
    (processGame oracle render n st i fs g).2.filter isCheckEv = [] ∧
    (processGame oracle render n st i fs g).2.filter isSleepEv = [] ∧
    (processGame oracle render n st i fs g).2.filter isFetchEv = [] := by
  rw [processGame_skip oracle render n st i fs g h]
  exact ⟨rfl, rfl, rfl⟩

theorem qhStep_le (s : Nat) (c : Char) : qhStep s c ≤ 5 := by
  unfold qhStep
  split_ifs <;> omega

theorem qhRun_le : ∀ (l : List Char) (s : Nat), s ≤ 5 → qhRun s l ≤ 5 := by
  intro l
  induction l with
  | nil => intro s hs; exact hs
  | cons c rest ih =>
    intro s hs
    exact ih (qhStep s c) (qhStep_le s c)

theorem qhStep_absorb (c : Char) : qhStep 5 c = 5 := by
  simp [qhStep]

theorem qhRun_absorb : ∀ (l : List Char), qhRun 5 l = 5 := by
  intro l
  induction l with
  | nil => rfl
  | cons c rest ih => simpa [qhRun, qhStep_absorb] using ih

theorem qhRun_pat : ∀ s : Nat, qhRun s qhPat = 5 := by
  intro s
  by_cases hs : 5 ≤ s
  · have h1 : qhStep s '"' = 5 := by simp [qhStep, hs]
    simp [qhRun, qhPat, List.foldl_cons, h1]
    have := qhRun_absorb ['h', 't', 't', 'p']
    simpa [qhRun] using this
  · have hlt : s < 5 := by omega
    interval_cases s <;> decide

theorem qhResetsB_sound (l : List Char) (h : qhResetsB l = true) : qhResets l := by
  intro s hs
  have hmem : s ∈ List.range 5 := List.mem_range.mpr (by omega)
  have := List.all_eq_true.mp h s hmem
  simpa using this

theorem qhRun_append (s : Nat) (a b : List Char) :
    qhRun s (a ++ b) = qhRun (qhRun s a) b := by
  simp [qhRun, List.foldl_append]

theorem qh_infix_accept {l : List Char} (h : qhPat <:+: l) :
    qhRun 0 l = 5 := by
  obtain ⟨u, v, huv⟩ := h
  subst huv
  rw [qhRun_append, qhRun_append, qhRun_pat]
  exact qhRun_absorb v

theorem qh_state_invariant : ∀ l : List Char,
    (qhRun 0 l = 5 → qhPat <:+: l) ∧
    (qhRun 0 l < 5 → qhPat.take (qhRun 0 l) <:+ l) := by
  intro l
  induction l using List.reverseRecOn with
  | nil =>
    constructor
    · intro h; simp [qhRun] at h
    · intro _; simp [qhRun]
  | append_singleton l c ih =>
    have hrun : qhRun 0 (l ++ [c]) = qhStep (qhRun 0 l) c := by
      simp [qhRun, List.foldl_append]
    have hbound : qhRun 0 l ≤ 5 := qhRun_le l 0 (by omega)
    by_cases h5 : qhRun 0 l = 5
    · have habs : qhStep (qhRun 0 l) c = 5 := by rw [h5]; exact qhStep_absorb c
      have hinf : qhPat <:+: l := ih.1 h5
      have hinf' : qhPat <:+: l ++ [c] := hinf.trans ⟨[], [c], by simp⟩
      constructor
      · intro _; exact hinf'
      · intro hlt; rw [hrun, habs] at hlt; omega
    · have hlt : qhRun 0 l < 5 := by omega
      have hsuf := ih.2 hlt
      constructor
      · intro hacc
        rw [hrun] at hacc
        unfold qhStep at hacc
        split_ifs at hacc with h1 h2 h3 h4 h6 h7
        all_goals try omega
        obtain ⟨hs4, hcp⟩ := h2
        rw [hs4] at hsuf
        obtain ⟨u, hu⟩ := hsuf
        refine ⟨u, [], ?_⟩
        rw [hcp, ← hu]
        simp [qhPat]
      · intro hlt5
        rw [hrun] at hlt5 ⊢
        unfold qhStep at hlt5 ⊢
        split_ifs at hlt5 ⊢ with h1 h2 h3 h4 h6 h7
        · omega
        · omega
        · exact ⟨l, by simp [qhPat, h3]⟩
        · obtain ⟨hs1, hch⟩ := h4
          rw [hs1] at hsuf
          obtain ⟨u, hu⟩ := hsuf
          exact ⟨u, by rw [hch, ← hu]; simp [qhPat]⟩
        · obtain ⟨hs2, hct⟩ := h6
          rw [hs2] at hsuf
          obtain ⟨u, hu⟩ := hsuf
          exact ⟨u, by rw [hct, ← hu]; simp [qhPat]⟩
        · obtain ⟨hs3, hct⟩ := h7
          rw [hs3] at hsuf
          obtain ⟨u, hu⟩ := hsuf
          exact ⟨u, by rw [hct, ← hu]; simp [qhPat]⟩
        · simp

theorem qh_accept_pattern {l : List Char} (h : qhRun 0 l = 5) : qhPat <:+: l :=
  (qh_state_invariant l).1 h

theorem slotCodesSegs_cons_lit (t : String) (rest : List Seg) :
    slotCodesSegs (Seg.lit t :: rest) = slotCodesSegs rest := rfl

theorem slotCodesSegs_cons_slot (c : String) (rest : List Seg) :
    slotCodesSegs (Seg.slot c :: rest) = c :: slotCodesSegs rest := rfl

theorem qhRun_guardedAux (ev : String → Except Unit JSValue) :
    ∀ (segs : List Seg) (flag : Bool) (s : Nat),
    guardedAux flag segs = true → s ≤ 4 → (flag = true → s = 0) →
    (∀ t, Seg.lit t ∈ segs → qhResets t.data) →
    (∀ c ∈ slotCodesSegs segs, ¬ qhPat <:+: (slotText ev c).1.data) →
    qhRun s ((segs.map (renderedSeg ev)).map String.data).join ≤ 4 := by
  intro segs
  induction segs with
  | nil => intro flag s _ hs _ _ _; simpa [qhRun] using hs
  | cons seg rest ih =>
    intro flag s hg hs hflag hlits hslots
    cases seg with
    | lit t =>
      have hre : qhResets t.data := hlits t (by simp)
      have hg' : guardedAux true rest = true := by simpa [guardedAux] using hg
      have h0 : qhRun s t.data = 0 := hre s hs
      simp only [List.map_cons, List.join_cons, renderedSeg, qhRun_append, h0]
      exact ih true 0 hg' (by omega) (fun _ => rfl)
        (fun u hu => hlits u (by simp [hu]))
        (by rw [← slotCodesSegs_cons_lit t rest]; exact hslots)
    | slot c =>
      have hg2 : flag = true ∧ guardedAux false rest = true := by
        simpa [guardedAux] using hg
      have hs0 : s = 0 := hflag hg2.1
      subst hs0
      have hclean : ¬ qhPat <:+: (slotText ev c).1.data :=
        hslots c (by rw [slotCodesSegs_cons_slot]; simp)
      have hne5 : qhRun 0 (slotText ev c).1.data ≠ 5 := fun hacc =>
        hclean (qh_accept_pattern hacc)
      have hle : qhRun 0 (slotText ev c).1.data ≤ 5 :=
        qhRun_le _ 0 (by omega)
      simp only [List.map_cons, List.join_cons, renderedSeg, qhRun_append]
      exact ih false _ hg2.2 (by omega) (fun h => by simp at h)
        (fun u hu => hlits u (by simp [hu]))
        (fun c' hc' => hslots c' (by rw [slotCodesSegs_cons_slot]; simp [hc']))

theorem qh_not_infix_guarded (ev : String → Except Unit JSValue)
    (segs : List Seg) (hg : guardedAux false segs = true)
    (hlits : ∀ t, Seg.lit t ∈ segs → qhResets t.data)
    (hslots : ∀ c ∈ slotCodesSegs segs, ¬ qhPat <:+: (slotText ev c).1.data) :
    ¬ qhPat <:+: ((segs.map (renderedSeg ev)).map String.data).join := by
  intro h
  have hacc := qh_infix_accept h
  have hle := qhRun_guardedAux ev segs false 0 hg (by omega)
    (fun h => by simp at h) hlits hslots
  omega

/-! ## Claims -/

/-- Claim C1: the Source Locator is claimed to return the path of the most
recently modified matching batch file, and `null` exactly when the
directory is missing or holds no match.  The `null` cases hold, but at the
failing input below — two matching batch files with modification times 100
and 200, in either directory order — `findLatestJsonFile` returns the file
with time 100, the *oldest* one: the source sorts descending by time and
then takes the last element of the sorted array. -/
theorem c1_locator_returns_oldest :
    findLatestJsonFile
      (some [⟨"SteamScrape_old.json", 100⟩, ⟨"SteamScrape_new.json", 200⟩]) =
      some "SteamScrape_old.json" ∧
    findLatestJsonFile
      (some [⟨"SteamScrape_new.json", 200⟩, ⟨"SteamScrape_old.json", 100⟩]) =
      some "SteamScrape_old.json" ∧
    findLatestJsonFile none = none ∧
    findLatestJsonFile (some [⟨"notes.txt", 500⟩]) = none ∧
    findLatestJsonFile (some []) = none := by
  decide

/-- Claim C2 (counterexample): with a context shaped exactly like the one
the pipeline passes (whose keys do not include `process`), the expression
`process.platform` evaluates successfully to ambient global state instead
of failing — `new Function` bodies see the Node global scope — so the
evaluator does not expose *only* the context bindings. -/
theorem c2_counterexample :
    lookupEnv demoCtx "process" = none ∧
    evalCode demoCtx ⟨0⟩ "process.platform" = .ok (.strV "linux") ∧
    renderTemplate (evalCode demoCtx ⟨0⟩) "$\x7bprocess.platform\x7d" =
      ("linux", []) := by
  refine ⟨rfl, rfl, by decide⟩

/-- Claim C2 (amended): the evaluator exposes the context bindings as the
constructed function's parameters, and those parameters shadow the
globals; but a name not bound in the context falls through to the ambient
Node global scope, and only a name bound in neither is a
`ReferenceError`.  Within the modelled fragment evaluation is read-only
and introduces no new binding. -/
theorem c2_scope_chain :
    (∀ (ctx glob : Env) (x : String) (v : JSValue),
      lookupEnv ctx x = some v → lookupVar ctx glob x = .ok v) ∧
    (∀ (ctx glob : Env) (x : String) (v : JSValue),
      lookupEnv ctx x = none → lookupEnv glob x = some v →
        lookupVar ctx glob x = .ok v) ∧
    (∀ (ctx glob : Env) (x : String),
      lookupEnv ctx x = none → lookupEnv glob x = none →
        lookupVar ctx glob x = .error ()) := by
  refine ⟨?_, ?_, ?_⟩
  · intro ctx glob x v h
    simp [lookupVar, h]
  · intro ctx glob x v h1 h2
    simp [lookupVar, h1, h2]
  · intro ctx glob x h1 h2
    simp [lookupVar, h1, h2]

/-- Witness for the amended claim C2 at concrete inputs: a context key
shadows, `process` falls through to the global scope, an unbound name
errors. -/
theorem c2_scope_chain_witness :
    lookupVar [("x", JSValue.numV 1)] nodeGlobals "x" = .ok (.numV 1) ∧
    lookupVar [] nodeGlobals "process" =
      .ok (.objV [("platform", .strV "linux"),
                  ("env", .objV [("HOME", .strV "/root")])]) ∧
    lookupVar [] [] "valve" = .error () :=
  ⟨c2_scope_chain.1 _ nodeGlobals "x" _ rfl,
   c2_scope_chain.2.1 [] nodeGlobals "process" _ rfl rfl,
   c2_scope_chain.2.2 [] [] "valve" rfl rfl⟩

/-- Claim C3 (counterexample): the claim says a non-success HTTP status
collapses to `None`; but `fetchSteamDetails` never inspects the status
code, so a status-500 response carrying a well-formed success envelope
still resolves the metadata. -/
theorem c3_counterexample :
    fetchSteamDetails (some 620)
      (.response 500 (some (.objV [("620",
        .objV [("success", .boolV true),
               ("data", .objV [("name", .strV "Portal")])])]))) =
      (some (.objV [("name", .strV "Portal")]), true) ∧
    some (JSValue.objV [("name", .strV "Portal")]) ≠ (none : Option JSValue) := by
  refine ⟨rfl, by simp⟩

/-- Claim C3 (amended): the client never raises (it is a total function in
the model); a zero or absent id short-circuits to `None` with no request;
a transport failure, a malformed body, or an envelope whose entry or
`success` flag is falsy each collapse to `None`.  The HTTP status code is
not inspected, so a non-success status alone does not force `None`. -/
theorem c3_fetch_none_cases :
    (∀ net, fetchSteamDetails none net = (none, false)) ∧
    (∀ net, fetchSteamDetails (some 0) net = (none, false)) ∧
    (∀ id : Int, id ≠ 0 →
      fetchSteamDetails (some id) .transportError = (none, true)) ∧
    (∀ (id : Int) (st : Nat), id ≠ 0 →
      fetchSteamDetails (some id) (.response st none) = (none, true)) ∧
    (∀ (id : Int) (st : Nat) (json : JSValue), id ≠ 0 →
      jsTruthy (getField (getField json (toString id)) "success") = false →
      fetchSteamDetails (some id) (.response st (some json)) = (none, true)) := by
  refine ⟨?_, ?_, ?_, ?_, ?_⟩
  · intro net; rfl
  · intro net; simp [fetchSteamDetails]
  · intro id h; simp [fetchSteamDetails, h]
  · intro id st h; simp [fetchSteamDetails, h]
  · intro id st json h hflag
    simp [fetchSteamDetails, h, hflag]

/-- Witness for the amended claim C3 at concrete inputs. -/
theorem c3_fetch_none_cases_witness :
    fetchSteamDetails none .transportError = (none, false) ∧
    fetchSteamDetails (some 0) .transportError = (none, false) ∧
    fetchSteamDetails (some 620) .transportError = (none, true) ∧
    fetchSteamDetails (some 620) (.response 200 none) = (none, true) ∧
    fetchSteamDetails (some 620)
      (.response 200 (some (.objV [("620", .objV [("success", .boolV false)])]))) =
      (none, true) :=
  ⟨c3_fetch_none_cases.1 _,
   c3_fetch_none_cases.2.1 _,
   c3_fetch_none_cases.2.2.1 620 (by decide),
   c3_fetch_none_cases.2.2.2.1 620 200 (by decide),
   c3_fetch_none_cases.2.2.2.2 620 200 _ (by decide) (by decide)⟩

/-- Claim C4: for every template given as literal chunks interleaved with
expression slots (chunks free of the opening delimiter, slot codes
nonempty and free of the closing delimiter), the engine substitutes each
slot independently: a slot whose expression evaluates to
`undefined`/`null` becomes the empty string, any other value becomes its
textual representation, and a throwing slot keeps its raw delimited text
while its code is reported as a diagnostic — and the rest of the template
still renders. -/
theorem c4_slots_substituted_independently (ev : String → Except Unit JSValue)
    (segs : List Seg) (h : ∀ s ∈ segs, goodSegB s = true) :
    renderTemplate ev (flatten segs) =
      (String.join (segs.map (renderedSeg ev)),
       (segs.map (diagsSeg ev)).join) :=
  renderTemplate_flatten ev segs h

/-- Witness for claim C4: a template with a string slot, a null slot and a
throwing slot. -/
theorem c4_slots_substituted_independently_witness :
    renderTemplate demoEv (flatten demoSegs) =
      (String.join (demoSegs.map (renderedSeg demoEv)),
       (demoSegs.map (diagsSeg demoEv)).join) :=
  c4_slots_substituted_independently demoEv demoSegs (by decide)

/-- Claim C5: a record whose existing artifact bears the skip marker is
left untouched — the skip branch performs no fetch, render or write (its
entire effect trace is the skip event and the file system is returned
unchanged) — and consequently a whole run modifies no artifact that bears
the skip marker, so a second run over an unchanged batch leaves every
artifact that gained the marker in the first run byte-for-byte intact. -/
theorem c5_skip_marker_idempotent :
    (∀ oracle render n st i fs g, skipCheck fs g = true →
      processGame oracle render n st i fs g = (fs, [.skipEv])) ∧
    (∀ oracle render games fs path content,
      lookupEnv fs path = some content → hasSkipMarker content = true →
      lookupEnv (runConversionModel oracle render games fs).1 path =
        some content) := by
  refine ⟨processGame_skip, ?_⟩
  intro oracle render games fs path content hl hm
  exact runGamesAux_marker_preserved oracle render games.length
    (updateStep games.length) games 0 fs path content hl hm

/-- Witness for claim C5: a marked artifact survives a run over a batch
whose record maps to that very file. -/
theorem c5_skip_marker_idempotent_witness :
    processGame (fun _ => none) (fun _ _ => "") 1 0 0
      [("A.md", "image: \"http://cdn/x.jpg")] ⟨"A", 3, none, none, 0, 10⟩ =
      ([("A.md", "image: \"http://cdn/x.jpg")], [.skipEv]) ∧
    lookupEnv (runConversionModel (fun _ => none) (fun _ _ => "")
        [⟨"A", 3, none, none, 0, 10⟩]
        [("A.md", "image: \"http://cdn/x.jpg")]).1 "A.md" =
      some "image: \"http://cdn/x.jpg" :=
  ⟨c5_skip_marker_idempotent.1 _ _ 1 0 0 _ _ (by decide),
   c5_skip_marker_idempotent.2 _ _ _ _ "A.md" _ (by decide) (by decide)⟩

/-- Claim C6: rate limiting.  `spacingRun false tr = some false` states
that scanning the trace `tr`, no fetch event ever occurs while a previous
fetch's delay is still outstanding, and no delay is outstanding at the
end: every fetch is followed by a sleep of at least `DELAY_MS` before the
next fetch begins, so (under the model that `setTimeout` waits at least
the requested time) consecutive fetch starts are at least 1200 ms apart.
A skipped record's trace contains no sleep at all, while every processed
record's trace contains exactly one sleep of `DELAY_MS`. -/
theorem c6_rate_limit :
    (∀ oracle render games fs,
      spacingRun false (runConversionModel oracle render games fs).2 =
        some false) ∧
    (∀ oracle render n st i fs g, skipCheck fs g = true →
      (processGame oracle render n st i fs g).2.filter isSleepEv = []) ∧
    (∀ oracle render n st i fs g, skipCheck fs g = false →
      (processGame oracle render n st i fs g).2.filter isSleepEv =
        [.sleepEv DELAY_MS]) := by
  refine ⟨?_, ?_, ?_⟩
  · intro oracle render games fs
    exact runGamesAux_spacing oracle render games.length
      (updateStep games.length) games 0 fs
  · intro oracle render n st i fs g h
    exact (processGame_skip_quiet oracle render n st i fs g h).2.1
  · intro oracle render n st i fs g h
    simp only [processGame, h, Bool.false_eq_true, if_false]
    by_cases hf : g.steamAppID ≠ 0 <;>
      by_cases hc : st > 0 ∧ (i + 1) % st = 0 ∧ i + 1 ≠ n <;>
        simp [hf, hc, isSleepEv]

/-- Witness for claim C6 at concrete inputs: a two-record batch (one
fetching record, one skipped record). -/
theorem c6_rate_limit_witness :
    spacingRun false (runConversionModel (fun _ => none) (fun _ _ => "")
      [⟨"A", 3, none, none, 0, 10⟩, ⟨"B", 4, none, none, 0, 10⟩] []).2 =
      some false ∧
    (processGame (fun _ => none) (fun _ _ => "") 2 0 0
      [("A.md", "image: \"http://cdn/x.jpg")]
      ⟨"A", 3, none, none, 0, 10⟩).2.filter isSleepEv = [] ∧
    (processGame (fun _ => none) (fun _ _ => "") 2 0 0 []
      ⟨"A", 3, none, none, 0, 10⟩).2.filter isSleepEv = [.sleepEv DELAY_MS] :=
  ⟨c6_rate_limit.1 _ _ _ [],
   c6_rate_limit.2.1 _ _ 2 0 0 _ _ (by decide),
   c6_rate_limit.2.2 _ _ 2 0 0 [] _ (by decide)⟩

/-- Claim C7 (counterexample): rendering the same template with the same
context in two different ambient worlds (the clock at 0 and at 1) yields
different bytes — the context hands `Date` to the template, and
`Date.now()` reads the ambient clock — so `render` is not a pure function
of template and context alone. -/
theorem c7_counterexample :
    renderTemplate (evalCode demoCtx ⟨0⟩) "$\x7bDate.now()\x7d" = ("0", []) ∧
    renderTemplate (evalCode demoCtx ⟨1⟩) "$\x7bDate.now()\x7d" = ("1", []) ∧
    renderTemplate (evalCode demoCtx ⟨0⟩) "$\x7bDate.now()\x7d" ≠
      renderTemplate (evalCode demoCtx ⟨1⟩) "$\x7bDate.now()\x7d" := by
  refine ⟨by decide, by decide, by decide⟩

/-- Claim C7 (amended): the render is a pure function of the template and
of the evaluation of its slot expressions — two evaluation oracles that
agree on every slot code of the template produce byte-identical output
(and identical diagnostics).  Repeated calls are byte-identical exactly
when no expression consults ambient state whose value changed between the
calls. -/
theorem c7_render_oracle_determined (ev₁ ev₂ : String → Except Unit JSValue)
    (segs : List Seg) (hgood : ∀ s ∈ segs, goodSegB s = true)
    (hagree : ∀ c ∈ slotCodesSegs segs, ev₁ c = ev₂ c) :
    renderTemplate ev₁ (flatten segs) = renderTemplate ev₂ (flatten segs) :=
  renderTemplate_oracle_congr ev₁ ev₂ segs hgood hagree

/-- Witness for the amended claim C7: a template whose only slot reads a
context binding renders identically in two different worlds. -/
theorem c7_render_oracle_determined_witness :
    renderTemplate (evalCode demoCtx ⟨0⟩)
        (flatten [Seg.lit "x: ", Seg.slot "playtime"]) =
      renderTemplate (evalCode demoCtx ⟨5⟩)
        (flatten [Seg.lit "x: ", Seg.slot "playtime"]) :=
  c7_render_oracle_determined _ _ [Seg.lit "x: ", Seg.slot "playtime"]
    (by decide)
    (fun c hc => by
      simp [slotCodesSegs] at hc
      subst hc
      rfl)

/-- Claim C8 (counterexample): for a batch of exactly ten records the
claim promises a periodic checkpoint every 10 processed records, i.e. one
at record 10; but the source suppresses the checkpoint when
`index + 1 = N`, so a full ten-record run emits no checkpoint event at
all. -/
theorem c8_counterexample :
    games10.length = 10 ∧
    (runConversionModel (fun _ => none) (fun _ _ => "") games10 []).2.filter
      isCheckEv = [] := by
  refine ⟨rfl, by decide⟩

/-- Claim C8 (amended): the checkpoint step is `⌈N/10⌉` for batches of at
least 100 records, `10` for batches of 10-99 and none below 10; a
checkpoint is emitted after a *non-skipped* record whose 1-based index is
a positive multiple of the step *and is not the final record*, reporting
the rounded percentage complete and the remaining-record count times the
fixed delay; a skipped record emits no checkpoint even at a checkpoint
index. -/
theorem c8_checkpoint_schedule :
    (∀ n, 100 ≤ n → (updateStep n : ℤ) = ⌈(n : ℚ) / 10⌉) ∧
    (∀ n, 10 ≤ n → n < 100 → updateStep n = 10) ∧
    (∀ n, n < 10 → updateStep n = 0) ∧
    (∀ oracle render n st i fs g, skipCheck fs g = false →
      (processGame oracle render n st i fs g).2.filter isCheckEv =
        if 0 < st ∧ (i + 1) % st = 0 ∧ i + 1 ≠ n then
          [.checkEv (round ((((i : ℚ) + 1) / n) * 100))
            ((n - (i + 1)) * DELAY_MS)]
        else []) ∧
    (∀ oracle render n st i fs g, skipCheck fs g = true →
      (processGame oracle render n st i fs g).2.filter isCheckEv = []) :=
  ⟨updateStep_ceil, updateStep_mid, updateStep_small, processGame_checkpoints,
   fun oracle render n st i fs g h =>
     (processGame_skip_quiet oracle render n st i fs g h).1⟩

/-- Witness for the amended claim C8 at concrete inputs: the step formulas
at 100, 50 and 9 records, and the checkpoint event of the 10th of 30
records. -/
theorem c8_checkpoint_schedule_witness :
    (updateStep 100 : ℤ) = ⌈(100 : ℚ) / 10⌉ ∧
    updateStep 50 = 10 ∧
    updateStep 9 = 0 ∧
    (processGame (fun _ => none) (fun _ _ => "") 30 10 9 []
      ⟨"A", 3, none, none, 0, 10⟩).2.filter isCheckEv =
      (if 0 < 10 ∧ (9 + 1) % 10 = 0 ∧ 9 + 1 ≠ 30 then
        [.checkEv (round ((((9 : ℚ) + 1) / 30) * 100)) ((30 - (9 + 1)) * DELAY_MS)]
      else []) :=
  ⟨c8_checkpoint_schedule.1 100 (by decide),
   c8_checkpoint_schedule.2.1 50 (by decide) (by decide),
   c8_checkpoint_schedule.2.2.1 9 (by decide),
   c8_checkpoint_schedule.2.2.2.1 _ _ 30 10 9 [] _ (by decide)⟩

/-- Claim C9 (counterexample): for the scenario record with title
`Foo: Bar`, the claim names the artifact `FooBar.md` (colon stripped with
no residue); but `sanitizeFilename` only removes the colon and keeps the
interior space, so the pipeline writes `Foo Bar.md`. -/
theorem c9_counterexample :
    sanitizeFilename "Foo: Bar" = "Foo Bar" ∧
    (processGame (fun _ => none) (fun _ _ => "") 1 0 0 [] fooGame).2 =
      [.writeEv "Foo Bar.md", .sleepEv DELAY_MS] ∧
    "Foo Bar.md" ≠ "FooBar.md" := by
  refine ⟨by decide, by decide, by decide⟩

/-- Claim C9 (amended): for the scenario record
`{title: "Foo: Bar", externalId: 0, playtime: Absent, lastPlayed: Never,
0 of 10 achievements}` the pipeline writes the artifact `Foo Bar.md`
(colon removed, interior space preserved), performs no fetch whatever the
oracle (the external id is 0, so no enrichment data is ever supplied),
and the derived values render the absent playtime as 0 with a 0%
completion rate. -/
theorem c9_scenario_record :
    (processGame (fun _ => none) (fun _ _ => "") 1 0 0 [] fooGame).2 =
      [.writeEv "Foo Bar.md", .sleepEv DELAY_MS] ∧
    (∀ oracle render n st i fs,
      (processGame oracle render n st i fs fooGame).2.filter isFetchEv = []) ∧
    derivedPlaytime fooGame = 0 ∧
    completionRate fooGame = 0 := by
  refine ⟨by decide, ?_, rfl, ?_⟩
  · intro oracle render n st i fs
    by_cases hs : skipCheck fs fooGame = true
    · rw [processGame_skip oracle render n st i fs fooGame hs]
      rfl
    · have hs' : skipCheck fs fooGame = false := by simpa using hs
      simp only [processGame, hs', Bool.false_eq_true, if_false]
      have hid : ¬ (fooGame.steamAppID ≠ 0) := by decide
      by_cases hc : st > 0 ∧ (i + 1) % st = 0 ∧ i + 1 ≠ n <;>
        simp [hid, hc, isFetchEv]
  · have h10 : (fooGame.totalAchievements > 0) := by decide
    simp only [completionRate, h10, if_true]
    norm_num [round_eq, fooGame]

set_option maxRecDepth 100000 in
/-- Claim C10 (counterexample): the claim's hypothesis only excludes field
values containing `image: "http` or `cover_url: "http` themselves; the
enrichment context `cEv10Table` satisfies it (its header-image string is
`"http://cdn.example/hdr.jpg`, starting with a double quote), yet the
artifact the default template renders from it *does* contain
`image: "http` — the template writes `image: ` directly followed by the
value — so the skip check returns `true`, not `false` as claimed. -/
theorem c10_counterexample :
    cEv10Table.all (fun kv => !(jsIncludes (jsToString kv.2) "image: \"http") &&
      !(jsIncludes (jsToString kv.2) "cover_url: \"http")) = true ∧
    jsIncludes (renderTemplate cEv10 DEFAULT_TEMPLATE).1 "image: \"http" = true ∧
    hasSkipMarker (renderTemplate cEv10 DEFAULT_TEMPLATE).1 = true := by
  refine ⟨by decide, by decide, by decide⟩

set_option maxRecDepth 100000 in
/-- Claim C10 (amended): for every evaluation of the default template none
of whose substituted slot values contains the substring `"http` (double
quote immediately followed by `http`), the rendered artifact contains
neither `image: "http` nor `cover_url: "http` — the default template
emits the image URL unquoted after `image: ` — hence the skip check
returns `false` on that artifact and such a record is re-fetched and
re-rendered on every subsequent run. -/
theorem c10_default_template_never_skips (ev : String → Except Unit JSValue)
    (hvals : ∀ c ∈ slotCodesSegs defaultTemplateSegs,
      ¬ qhPat <:+: (slotText ev c).1.data) :
    ¬ ("image: \"http".data <:+: (renderTemplate ev DEFAULT_TEMPLATE).1.data) ∧
    ¬ ("cover_url: \"http".data <:+:
        (renderTemplate ev DEFAULT_TEMPLATE).1.data) ∧
    hasSkipMarker (renderTemplate ev DEFAULT_TEMPLATE).1 = false ∧
    (∀ fs g, lookupEnv fs (sanitizeFilename g.name ++ ".md") =
        some (renderTemplate ev DEFAULT_TEMPLATE).1 →
      skipCheck fs g = false) := by
  have hall : defaultTemplateSegs.all goodSegB = true := by decide
  have hgood : ∀ s ∈ defaultTemplateSegs, goodSegB s = true :=
    fun s hs => List.all_eq_true.mp hall s hs
  have hg : guardedAux false defaultTemplateSegs = true := by decide
  have hres : defaultTemplateSegs.all
      (fun s => match s with
        | .lit t => qhResetsB t.data
        | .slot _ => true) = true := by decide
  have hlits : ∀ t, Seg.lit t ∈ defaultTemplateSegs → qhResets t.data := by
    intro t ht
    have := List.all_eq_true.mp hres _ ht
    exact qhResetsB_sound _ (by simpa using this)
  have hdata : (renderTemplate ev DEFAULT_TEMPLATE).1.data =
      ((defaultTemplateSegs.map (renderedSeg ev)).map String.data).join := by
    have hrt := renderTemplate_flatten ev defaultTemplateSegs hgood
    rw [show DEFAULT_TEMPLATE = flatten defaultTemplateSegs from rfl, hrt,
      data_join]
  have hnot : ¬ qhPat <:+: (renderTemplate ev DEFAULT_TEMPLATE).1.data := by
    rw [hdata]
    exact qh_not_infix_guarded ev defaultTemplateSegs hg hlits hvals
  have h1 : ¬ ("image: \"http".data <:+:
      (renderTemplate ev DEFAULT_TEMPLATE).1.data) := fun h =>
    hnot ((show qhPat <:+: "image: \"http".data by decide).trans h)
  have h2 : ¬ ("cover_url: \"http".data <:+:
      (renderTemplate ev DEFAULT_TEMPLATE).1.data) := fun h =>
    hnot ((show qhPat <:+: "cover_url: \"http".data by decide).trans h)
  have h3 : hasSkipMarker (renderTemplate ev DEFAULT_TEMPLATE).1 = false := by
    simp only [hasSkipMarker, jsIncludes, decide_eq_false h1,
      decide_eq_false h2, Bool.or_self]
  refine ⟨h1, h2, h3, ?_⟩
  intro fs g hl
  rw [skipCheck, hl]
  exact h3

set_option maxRecDepth 100000 in
/-- Witness for the amended claim C10: with an ordinary header-image URL
no substituted value contains `"http`, and the rendered artifact indeed
fails the skip check. -/
theorem c10_default_template_never_skips_witness :
    hasSkipMarker (renderTemplate cEvClean DEFAULT_TEMPLATE).1 = false :=
  (c10_default_template_never_skips cEvClean (by decide)).2.2.1
